import Mathlib

/-!
Shallow embedding of the Persona ChatBot (src/main.py): the conversation
history store, its JSON persistence (`save_history` / `load_history`), and
the three Session Controller actions (Send / Clear / Export).
-/

/-- A conversation turn, as appended by `append_message` in src/main.py:
a dict `{"role": role, "text": text, "ts": time.time()}`.  Timestamps are
modelled as naturals; nothing in the code computes with them. -/
structure Turn where
  role : String
  text : String
  ts : Nat
deriving DecidableEq, Repr

/-- JSON values, as produced and consumed by `json.dump` / `json.load`.
Numbers are modelled as naturals (only timestamps occur, and no arithmetic
is done on them). -/
inductive Json where
  | null : Json
  | bool : Bool → Json
  | num : Nat → Json
  | str : String → Json
  | arr : List Json → Json
  | obj : List (String × Json) → Json

/-- Python `str.strip()` on the underlying character list: drop whitespace
from both ends. -/
def stripChars (l : List Char) : List Char :=
  ((l.dropWhile Char.isWhitespace).reverse.dropWhile Char.isWhitespace).reverse

/-- Python `str.strip()`: the input with leading and trailing whitespace
removed. -/
def pyStrip (s : String) : String :=
  ⟨stripChars s.data⟩

/-- Python `dict.get(key, default)` on the association list of an object. -/
def getField (fields : List (String × Json)) (key : String) : Option Json :=
  fields.lookup key

/-- The state of the persisted file: absent, present but not parseable as
JSON, or present with JSON content `j`. -/
inductive FileState where
  | missing : FileState
  | invalid : FileState
  | valid : Json → FileState

/-- `append_message(history, role, text)` (src/main.py line 69): append a
turn stamped with the current time `t`. -/
def append_message (history : List Turn) (role text : String) (t : Nat) : List Turn :=
  history ++ [⟨role, text, t⟩]

/-- The JSON value `save_history` writes (src/main.py line 54):
`{"saved_at": time.time(), "history": history}`. -/
def save_json (history : List Json) (t : Nat) : Json :=
  .obj [("saved_at", .num t), ("history", .arr history)]

/-- Encoding of an in-memory turn as the JSON object `json.dump` writes for
it: `{"role": ..., "text": ..., "ts": ...}`. -/
def encodeTurn (u : Turn) : Json :=
  .obj [("role", .str u.role), ("text", .str u.text), ("ts", .num u.ts)]

/-- Reading a turn back out of its JSON object (the fields the code
accesses: `h["role"]`, `h["text"]`, `msg.get("ts")`). -/
def decodeTurn : Json → Option Turn
  | .obj fields =>
    match getField fields "role", getField fields "text", getField fields "ts" with
    | some (.str r), some (.str x), some (.num n) => some ⟨r, x, n⟩
    | _, _, _ => none
  | _ => none

/-- `save_history(history)` (src/main.py lines 51-56) on the success path:
the file afterwards holds the snapshot JSON. -/
def save_history (history : List Turn) (t : Nat) : FileState :=
  .valid (save_json (history.map encodeTurn) t)

/-- Result of `load_history`: the value bound to the session history, and
whether `st.warning` was shown. -/
structure LoadResult where
  history : Json
  warned : Bool

/-- `load_history(filename)` (src/main.py lines 58-67).  Missing file:
return `[]`.  Unparseable content: `json.load` raises, caught, warning,
`[]`.  JSON content that is not an object: `data.get` raises
AttributeError, caught, warning, `[]`.  JSON object: return
`data.get("history", [])` verbatim, no warning. -/
def load_history : FileState → LoadResult
  | .missing => ⟨.arr [], false⟩
  | .invalid => ⟨.arr [], true⟩
  | .valid (.obj fields) => ⟨(getField fields "history").getD (.arr []), false⟩
  | .valid _ => ⟨.arr [], true⟩

/-- One chat-completion message, a dict `{"role": ..., "content": ...}`. -/
structure Msg where
  role : String
  content : String
deriving DecidableEq, Repr

/-- Outcome of the remote completion call: the generated text, or any
exception raised by the call. -/
inductive CompletionResult where
  | ok : String → CompletionResult
  | err : CompletionResult
deriving DecidableEq, Repr

/-- Session state touched by the handlers: the in-memory history
(`st.session_state.history`) and the persisted file. -/
structure AppState where
  history : List Turn
  file : FileState

/-- Python `history[-24:]`: the last `n` elements (all, when fewer). -/
def lastWindow (n : Nat) (l : List α) : List α :=
  l.drop (l.length - n)

/-- The prompt built in the Send handler (src/main.py lines 141-143): the
persona's system message followed by the last 24 turns. -/
def mkMessages (systemPrompt : String) (history : List Turn) : List Msg :=
  ⟨"system", systemPrompt⟩ :: (lastWindow 24 history).map (fun u => ⟨u.role, u.text⟩)

/-- What a Send leaves behind: the new session state, the messages sent to
the remote service (`none` when no call was made), and whether the
empty-input warning was shown. -/
structure SendOutcome where
  state : AppState
  promptSent : Option (List Msg)
  warned : Bool

/-- The Send handler (src/main.py lines 132-161).  `res` is the outcome of
the remote call; `t1`, `t2`, `t3` are the wall-clock samples taken at the
user-turn append, the assistant-turn append, and the save. -/
def sendHandler (s : AppState) (rawInput systemPrompt : String)
    (res : CompletionResult) (persist : Bool) (t1 t2 t3 : Nat) : SendOutcome :=
  let user_input := pyStrip rawInput
  if user_input = "" then
    ⟨s, none, true⟩
  else
    let h1 := append_message s.history "user" user_input t1
    let messages := mkMessages systemPrompt h1
    match res with
    | .ok reply =>
      let h2 := append_message h1 "assistant" (pyStrip reply) t2
      let file := if persist then save_history h2 t3 else s.file
      ⟨⟨h2, file⟩, some messages, false⟩
    | .err =>
      ⟨⟨h1, s.file⟩, some messages, false⟩

/-- The Clear handler (src/main.py lines 164-169): reset the history to
empty and, when persistence is on, remove the persisted file. -/
def clearHandler (s : AppState) (persist : Bool) : AppState :=
  ⟨[], if persist then .missing else s.file⟩

/-- The Export handler (src/main.py lines 172-180): the JSON blob offered
for download.  The handler reads the session state and does not write it. -/
def export_data (s : AppState) (personaKey model : String) (t : Nat) : Json :=
  .obj [("exported_at", .num t), ("persona", .str personaKey),
        ("model", .str model), ("history", .arr (s.history.map encodeTurn))]

/-- One Send interaction: the raw input, the remote call's outcome, and the
wall-clock samples of that interaction. -/
structure SendStep where
  input : String
  result : CompletionResult
  t1 : Nat
  t2 : Nat
  t3 : Nat

/-- Run a sequence of Send actions. -/
def runSends (systemPrompt : String) (persist : Bool) : AppState → List SendStep → AppState
  | s, [] => s
  | s, step :: rest =>
    runSends systemPrompt persist
      (sendHandler s step.input systemPrompt step.result persist step.t1 step.t2 step.t3).state rest

/-- The turns one Send with non-empty (trimmed) input appends. -/
def stepTurns (step : SendStep) : List Turn :=
  match step.result with
  | .ok reply => [⟨"user", pyStrip step.input, step.t1⟩, ⟨"assistant", pyStrip reply, step.t2⟩]
  | .err => [⟨"user", pyStrip step.input, step.t1⟩]

/-- How much one Send with non-empty (trimmed) input grows the history. -/
def sendWeight : CompletionResult → Nat
  | .ok _ => 2
  | .err => 1

/-- The turns a whole sequence of Sends with non-empty (trimmed) inputs
appends, in order. -/
def stepsTurns : List SendStep → List Turn
  | [] => []
  | step :: rest => stepTurns step ++ stepsTurns rest

/-- The total history growth of a sequence of Sends with non-empty
(trimmed) inputs: 2 per successful remote call, 1 per failed one. -/
def stepsWeight : List SendStep → Nat
  | [] => 0
  | step :: rest => sendWeight step.result + stepsWeight rest

/-- The full Export handler: it reads the session state and offers the
blob for download; the state itself is untouched. -/
def exportHandler (s : AppState) (personaKey model : String) (t : Nat) : AppState × Json :=
  (s, export_data s personaKey model t)

/-- The fields of a JSON object (and `[]` for any other value). -/
def objFields : Json → List (String × Json)
  | .obj fields => fields
  | _ => []

/-- Timestamps are non-decreasing in insertion order. -/
def tsMonotone (l : List Turn) : Prop :=
  List.Chain' (fun a b => a.ts ≤ b.ts) l

/-! ## Helper lemmas -/

/-- Decoding inverts encoding: roles, texts and timestamps survive the
trip through the persisted JSON form. -/
theorem decodeTurn_encodeTurn (u : Turn) : decodeTurn (encodeTurn u) = some u := rfl

/-- Mapping the decoder over an encoded conversation recovers it. -/
theorem map_decode_encode (l : List Turn) :
    (l.map encodeTurn).map decodeTurn = l.map some := by
  simp [List.map_map, Function.comp_def, decodeTurn_encodeTurn]

/-- Appending a turn whose timestamp dominates the existing ones keeps the
timestamps non-decreasing. -/
theorem tsMonotone_append : ∀ (l : List Turn) (u : Turn),
    tsMonotone l → (∀ v ∈ l, v.ts ≤ u.ts) → tsMonotone (l ++ [u])
  | [], u, _, _ => List.chain'_singleton u
  | [a], u, _, hle => List.chain'_cons.mpr ⟨hle a (by simp), List.chain'_singleton u⟩
  | a :: b :: rest, u, hm, hle => by
    have hm' := List.chain'_cons.mp hm
    have htail := tsMonotone_append (b :: rest) u hm'.2 (fun v hv => hle v (by simp [hv]))
    exact List.chain'_cons.mpr ⟨hm'.1, htail⟩

/-- Unfolding of the Send handler on non-blank input and a successful
remote call. -/
theorem sendHandler_ok (s : AppState) (raw sys reply : String) (p : Bool)
    (t1 t2 t3 : Nat) (h : pyStrip raw ≠ "") :
    sendHandler s raw sys (.ok reply) p t1 t2 t3 =
      ⟨⟨append_message (append_message s.history "user" (pyStrip raw) t1)
          "assistant" (pyStrip reply) t2,
        if p then
          save_history (append_message (append_message s.history "user" (pyStrip raw) t1)
            "assistant" (pyStrip reply) t2) t3
        else s.file⟩,
       some (mkMessages sys (append_message s.history "user" (pyStrip raw) t1)), false⟩ := by
  simp [sendHandler, h]

/-- Unfolding of the Send handler on non-blank input and a failing remote
call. -/
theorem sendHandler_err (s : AppState) (raw sys : String) (p : Bool)
    (t1 t2 t3 : Nat) (h : pyStrip raw ≠ "") :
    sendHandler s raw sys .err p t1 t2 t3 =
      ⟨⟨append_message s.history "user" (pyStrip raw) t1, s.file⟩,
       some (mkMessages sys (append_message s.history "user" (pyStrip raw) t1)), false⟩ := by
  simp [sendHandler, h]

/-- One Send step appends `sendWeight` many turns. -/
theorem stepTurns_length (step : SendStep) :
    (stepTurns step).length = sendWeight step.result := by
  cases h : step.result <;> simp [stepTurns, sendWeight, h]

/-! ## Claim theorems -/

/-- C2: saving any Conversation `C` (including the empty one) with
`save_history` and loading the same file with `load_history` reproduces
`C` exactly: the loaded history is the saved turn list verbatim, with no
warning, and decoding recovers every role, text and timestamp. -/
theorem save_load_roundtrip (C : List Turn) (t : Nat) :
    load_history (save_history C t) = ⟨.arr (C.map encodeTurn), false⟩ ∧
    (C.map encodeTurn).map decodeTurn = C.map some :=
  ⟨rfl, map_decode_encode C⟩

/-- C4: Clear always yields an empty Conversation regardless of prior
state, is idempotent, and leaves no persisted file when persistence is
enabled. -/
theorem clear_empty_idempotent (s : AppState) (p : Bool) :
    (clearHandler s p).history = [] ∧
    clearHandler (clearHandler s p) p = clearHandler s p ∧
    (clearHandler s true).file = .missing := by
  refine ⟨rfl, ?_, rfl⟩
  cases p <;> rfl

/-- C5 counterexample: the file content `{"history": 42}` is not the
expected snapshot shape, yet `load_history` returns the non-list value 42
as the conversation and shows no warning — refuting "every malformed or
corrupt persisted file loads as an empty Conversation with a warning". -/
theorem load_malformed_counterexample :
    (load_history (.valid (.obj [("history", .num 42)]))).history = .num 42 ∧
    (load_history (.valid (.obj [("history", .num 42)]))).warned = false ∧
    Json.num 42 ≠ Json.arr [] :=
  ⟨rfl, rfl, fun h => Json.noConfusion h⟩

/-- C5 amended: for every persisted file whose content fails to parse as a
JSON object (unparseable text, or a JSON value of any other shape),
`load_history` returns the empty Conversation together with a recoverable
warning and never raises; files parsing to a JSON object are instead
handled via their `history` key without shape validation. -/
theorem load_nonobject_soft (f : FileState)
    (h : f = .invalid ∨ ∃ j, f = .valid j ∧ ∀ fields, j ≠ .obj fields) :
    load_history f = ⟨.arr [], true⟩ := by
  rcases h with h | ⟨j, rfl, hj⟩
  · subst h; rfl
  · cases j with
    | obj fields => exact absurd rfl (hj fields)
    | null => rfl
    | bool b => rfl
    | num n => rfl
    | str s => rfl
    | arr l => rfl

/-- Witness for C5 amended: an unparseable file and a JSON-array file both
load as the empty Conversation with a warning. -/
theorem load_nonobject_soft_witness :
    load_history .invalid = ⟨.arr [], true⟩ ∧
    load_history (.valid (.arr [])) = ⟨.arr [], true⟩ :=
  ⟨load_nonobject_soft .invalid (Or.inl rfl),
   load_nonobject_soft (.valid (.arr []))
     (Or.inr ⟨.arr [], rfl, fun _ h => Json.noConfusion h⟩)⟩

/-- C6: loading when no file exists yields the empty Conversation, with no
warning and no exception. -/
theorem load_missing_empty : load_history .missing = ⟨.arr [], false⟩ := rfl

/-- C7: for every session state and metadata, Export leaves the state
unchanged and its JSON blob carries the in-memory Conversation verbatim
(content and order, every turn recoverable), plus the persona id, the
model id and the export timestamp. -/
theorem export_reflects_history (s : AppState) (pk m : String) (t : Nat) :
    (exportHandler s pk m t).1 = s ∧
    getField (objFields (exportHandler s pk m t).2) "history"
      = some (.arr (s.history.map encodeTurn)) ∧
    (s.history.map encodeTurn).map decodeTurn = s.history.map some ∧
    getField (objFields (exportHandler s pk m t).2) "persona" = some (.str pk) ∧
    getField (objFields (exportHandler s pk m t).2) "model" = some (.str m) ∧
    getField (objFields (exportHandler s pk m t).2) "exported_at" = some (.num t) :=
  ⟨rfl, rfl, map_decode_encode s.history, rfl, rfl, rfl⟩

/-- C8: a Send whose input trims to the empty string leaves the whole
session state unchanged — no turn appended, no remote call, no file write
— and only shows a warning. -/
theorem send_blank_noop (s : AppState) (raw sys : String) (res : CompletionResult)
    (p : Bool) (t1 t2 t3 : Nat) (h : pyStrip raw = "") :
    sendHandler s raw sys res p t1 t2 t3 = ⟨s, none, true⟩ := by
  simp [sendHandler, h]

/-- Witness for C8: a whitespace-only Send on a concrete state. -/
theorem send_blank_noop_witness :
    pyStrip "   " = "" ∧
    sendHandler ⟨[], .missing⟩ "   " "sp" .err false 0 0 0 = ⟨⟨[], .missing⟩, none, true⟩ :=
  ⟨by decide, send_blank_noop ⟨[], .missing⟩ "   " "sp" .err false 0 0 0 (by decide)⟩

/-- C10: when the file parses as a JSON object, `load_history` returns the
value of its `history` key verbatim — whatever its shape — with no
warning, and the empty list when the key is absent. -/
theorem load_object_verbatim (fields : List (String × Json)) :
    (∀ j, getField fields "history" = some j →
      load_history (.valid (.obj fields)) = ⟨j, false⟩) ∧
    (getField fields "history" = none →
      load_history (.valid (.obj fields)) = ⟨.arr [], false⟩) := by
  constructor
  · intro j hj; simp [load_history, hj]
  · intro hj; simp [load_history, hj]

/-- Witness for C10: a present non-list `history` value is returned as-is;
an absent key yields the empty list. -/
theorem load_object_verbatim_witness :
    load_history (.valid (.obj [("history", .num 7)])) = ⟨.num 7, false⟩ ∧
    load_history (.valid (.obj [("saved_at", .num 0)])) = ⟨.arr [], false⟩ :=
  ⟨(load_object_verbatim [("history", .num 7)]).1 (.num 7) rfl,
   (load_object_verbatim [("saved_at", .num 0)]).2 rfl⟩

/-! ## Further helper lemmas -/

/-- A sequence of Sends appends as many turns as its total weight. -/
theorem stepsTurns_length (steps : List SendStep) :
    (stepsTurns steps).length = stepsWeight steps := by
  induction steps with
  | nil => rfl
  | cons step rest ih => simp [stepsTurns, stepsWeight, stepTurns_length, ih]

/-- A Send with non-empty (trimmed) input appends exactly the turns of its
step, at the end of the history. -/
theorem sendHandler_history (s : AppState) (sys : String) (p : Bool) (step : SendStep)
    (h : pyStrip step.input ≠ "") :
    (sendHandler s step.input sys step.result p step.t1 step.t2 step.t3).state.history
      = s.history ++ stepTurns step := by
  cases hres : step.result with
  | ok reply =>
    rw [sendHandler_ok s step.input sys reply p step.t1 step.t2 step.t3 h]
    simp [append_message, stepTurns, hres]
  | err =>
    rw [sendHandler_err s step.input sys p step.t1 step.t2 step.t3 h]
    simp [append_message, stepTurns, hres]

/-- Running a sequence of Sends with non-empty (trimmed) inputs appends
exactly the steps' turns. -/
theorem runSends_history (sys : String) (p : Bool) :
    ∀ (steps : List SendStep) (s : AppState), (∀ u ∈ steps, pyStrip u.input ≠ "") →
    (runSends sys p s steps).history = s.history ++ stepsTurns steps := by
  intro steps
  induction steps with
  | nil => intro s _; simp [runSends, stepsTurns]
  | cons step rest ih =>
    intro s hne
    have hstep : pyStrip step.input ≠ "" := hne step (by simp)
    have hrest : ∀ u ∈ rest, pyStrip u.input ≠ "" := fun u hu => hne u (by simp [hu])
    have hrec := ih (sendHandler s step.input sys step.result p step.t1 step.t2 step.t3).state hrest
    calc (runSends sys p s (step :: rest)).history
      = (sendHandler s step.input sys step.result p step.t1 step.t2 step.t3).state.history
          ++ stepsTurns rest := hrec
    _ = (s.history ++ stepTurns step) ++ stepsTurns rest := by
          rw [sendHandler_history s sys p step hstep]
    _ = s.history ++ stepsTurns (step :: rest) := by
          rw [List.append_assoc]; rfl

/-- The trailing window of a history ending in `u` also ends in `u`. -/
theorem lastWindow_concat_last (l : List Turn) (u : Turn) :
    ∃ ws, lastWindow 24 (l ++ [u]) = ws ++ [u] := by
  have hlen : (l ++ [u]).length = l.length + 1 := by simp
  exact ⟨l.drop ((l ++ [u]).length - 24),
    by rw [lastWindow, List.drop_append_of_le_length (by omega)]⟩

/-- C1: over any sequence of Sends whose inputs are non-empty after
trimming, the Conversation grows by exactly the appended turns — one user
turn plus one assistant turn (length +2) per successful remote call, and
the user turn alone (length +1, not rolled back) per failed call. -/
theorem send_sequence_growth (sys : String) (p : Bool) (s : AppState)
    (steps : List SendStep) (h : ∀ u ∈ steps, pyStrip u.input ≠ "") :
    (runSends sys p s steps).history = s.history ++ stepsTurns steps ∧
    (runSends sys p s steps).history.length = s.history.length + stepsWeight steps := by
  refine ⟨runSends_history sys p steps s h, ?_⟩
  rw [runSends_history sys p steps s h, List.length_append, stepsTurns_length]

/-- Witness for C1: one successful and one failed Send on the empty
conversation leave exactly three turns. -/
theorem send_sequence_growth_witness :
    (runSends "sp" false ⟨[], .missing⟩
        [⟨"hi", .ok "yo", 1, 2, 3⟩, ⟨" a ", .err, 4, 5, 6⟩]).history
      = ([] : List Turn) ++ stepsTurns [⟨"hi", .ok "yo", 1, 2, 3⟩, ⟨" a ", .err, 4, 5, 6⟩] :=
  (send_sequence_growth "sp" false ⟨[], .missing⟩
    [⟨"hi", .ok "yo", 1, 2, 3⟩, ⟨" a ", .err, 4, 5, 6⟩] (by decide)).1

/-- C3 counterexample: a persisted file not produced by `save_history` —
here `{"history": [..ts 5.., ..ts 3..]}` — is loaded verbatim, so the
load operation does not preserve the non-decreasing-timestamp invariant:
the resulting reachable conversation has decreasing timestamps. -/
theorem ts_monotone_load_counterexample :
    (load_history (.valid (.obj [("history",
        .arr ([⟨"user", "a", 5⟩, ⟨"user", "b", 3⟩].map encodeTurn))]))).history
      = .arr ([⟨"user", "a", 5⟩, ⟨"user", "b", 3⟩].map encodeTurn) ∧
    ([⟨"user", "a", 5⟩, ⟨"user", "b", 3⟩].map encodeTurn).map decodeTurn
      = [⟨"user", "a", 5⟩, ⟨"user", "b", 3⟩].map some ∧
    ¬ tsMonotone [⟨"user", "a", 5⟩, ⟨"user", "b", 3⟩] :=
  ⟨rfl, rfl, fun h => absurd (List.chain'_cons.mp h).1 (by decide)⟩

/-- C3 amended: timestamps stay non-decreasing under the operations the
program itself performs, given a monotone wall clock: Send appends turns
stamped at append time (so a history whose stamps do not exceed the clock
stays monotone), Clear yields the trivially monotone empty history, and
loading a file that `save_history` wrote from a monotone conversation
reproduces that conversation; loading an arbitrary foreign file is not
covered, since its content is adopted verbatim. -/
theorem ts_monotone_preserved (s : AppState) (raw sys : String) (res : CompletionResult)
    (p : Bool) (t1 t2 t3 : Nat) (C : List Turn) (t : Nat)
    (hmono : tsMonotone s.history)
    (hclock : ∀ v ∈ s.history, v.ts ≤ t1) (h12 : t1 ≤ t2) (hC : tsMonotone C) :
    tsMonotone (sendHandler s raw sys res p t1 t2 t3).state.history ∧
    tsMonotone (clearHandler s p).history ∧
    ((load_history (save_history C t)).history = .arr (C.map encodeTurn) ∧ tsMonotone C) := by
  refine ⟨?_, List.chain'_nil, rfl, hC⟩
  by_cases hb : pyStrip raw = ""
  · simpa [sendHandler, hb] using hmono
  · have hu : tsMonotone (append_message s.history "user" (pyStrip raw) t1) :=
      tsMonotone_append s.history ⟨"user", pyStrip raw, t1⟩ hmono hclock
    have hle2 : ∀ v ∈ append_message s.history "user" (pyStrip raw) t1, v.ts ≤ t2 := by
      intro v hv
      rw [append_message] at hv
      rcases List.mem_append.mp hv with hv | hv
      · exact le_trans (hclock v hv) h12
      · rw [List.mem_singleton] at hv
        subst hv
        exact h12
    cases res with
    | ok reply =>
      rw [sendHandler_ok s raw sys reply p t1 t2 t3 hb]
      exact tsMonotone_append _ ⟨"assistant", pyStrip reply, t2⟩ hu hle2
    | err =>
      rw [sendHandler_err s raw sys p t1 t2 t3 hb]
      exact hu

/-- Witness for C3 amended: a concrete one-turn history, a successful Send
at later clock times, a Clear, and a load of a saved one-turn
conversation. -/
theorem ts_monotone_preserved_witness :
    tsMonotone (sendHandler ⟨[⟨"user", "x", 1⟩], .missing⟩ "hi" "sp" (.ok "y")
        false 2 3 4).state.history ∧
    tsMonotone (clearHandler ⟨[⟨"user", "x", 1⟩], .missing⟩ false).history ∧
    ((load_history (save_history [⟨"user", "x", 1⟩] 9)).history
        = .arr ([⟨"user", "x", 1⟩].map encodeTurn) ∧ tsMonotone [⟨"user", "x", 1⟩]) :=
  ts_monotone_preserved ⟨[⟨"user", "x", 1⟩], .missing⟩ "hi" "sp" (.ok "y") false 2 3 4
    [⟨"user", "x", 1⟩] 9 (List.chain'_singleton _) (by decide) (by decide)
    (List.chain'_singleton _)

/-- C9: on a Send with non-empty (trimmed) input and a successful remote
call, the prompt sent is exactly the persona's system message followed by
the last 24 turns of the conversation after the user turn was appended —
all of them when fewer than 24 exist — so it ends with the just-appended
user turn and never holds more than 25 messages. -/
theorem send_prompt_window (s : AppState) (raw sys reply : String) (p : Bool)
    (t1 t2 t3 : Nat) (h : pyStrip raw ≠ "") :
    (sendHandler s raw sys (.ok reply) p t1 t2 t3).promptSent
      = some (mkMessages sys (append_message s.history "user" (pyStrip raw) t1)) ∧
    mkMessages sys (append_message s.history "user" (pyStrip raw) t1)
      = ⟨"system", sys⟩ ::
        ((append_message s.history "user" (pyStrip raw) t1).drop
          ((append_message s.history "user" (pyStrip raw) t1).length - 24)).map
          (fun u => ⟨u.role, u.text⟩) ∧
    (mkMessages sys (append_message s.history "user" (pyStrip raw) t1)).length ≤ 25 ∧
    ((append_message s.history "user" (pyStrip raw) t1).length ≤ 24 →
      mkMessages sys (append_message s.history "user" (pyStrip raw) t1)
        = ⟨"system", sys⟩ ::
          (append_message s.history "user" (pyStrip raw) t1).map (fun u => ⟨u.role, u.text⟩)) ∧
    ∃ ws, mkMessages sys (append_message s.history "user" (pyStrip raw) t1)
        = ⟨"system", sys⟩ :: (ws ++ [⟨"user", pyStrip raw⟩]) := by
  refine ⟨?_, rfl, ?_, ?_, ?_⟩
  · rw [sendHandler_ok s raw sys reply p t1 t2 t3 h]
  · simp [mkMessages, lastWindow, append_message]
    omega
  · intro hlen
    have h0 : (append_message s.history "user" (pyStrip raw) t1).length - 24 = 0 := by
      omega
    rw [mkMessages, lastWindow, h0, List.drop_zero]
  · obtain ⟨ws, hws⟩ := lastWindow_concat_last s.history ⟨"user", pyStrip raw, t1⟩
    refine ⟨ws.map (fun u => ⟨u.role, u.text⟩), ?_⟩
    rw [mkMessages,
      show append_message s.history "user" (pyStrip raw) t1
        = s.history ++ [⟨"user", pyStrip raw, t1⟩] from rfl,
      hws, List.map_append]
    rfl

/-- Witness for C9: a successful Send on the empty conversation sends the
system message plus the single user turn. -/
theorem send_prompt_window_witness :
    pyStrip "hi" ≠ "" ∧
    (sendHandler ⟨[], .missing⟩ "hi" "sp" (.ok "y") false 1 2 3).promptSent
      = some (mkMessages "sp" (append_message [] "user" (pyStrip "hi") 1)) :=
  ⟨by decide, (send_prompt_window ⟨[], .missing⟩ "hi" "sp" "y" false 1 2 3 (by decide)).1⟩
